import Mathlib

/-!
CSS selector grammar parser: a Lean model of the Blink CSS selector parser
exercised by `CSSSelectorParserTest.cpp`, together with theorems about the
`an+b` micro-grammar, compound-selector legality, mode-gated relaxations,
selector-list validity and serialization.

The parser implementation itself (`CSSSelectorParser.cpp`, `CSSTokenizer`) is
not part of the source bundle; only its unit tests are.  The definitions below
are therefore modelled from the specification (grammar in its section 4, data
model in section 3, interface boundary in section 6) and are checked against
the test tables that are part of the source.
-/

namespace CSSSel

/-- Modelled from the spec: token kinds produced by the (out-of-scope)
tokenizer, as described in section 3 — "tagged value with kind (identifier,
hash, delimiter, function, number, whitespace, ...), an optional string
payload, and for numeric tokens a resolved integer value plus a flag
indicating whether a sign was explicitly present".  Only integral numeric
tokens are modelled, which is all the `an+b` micro-grammar distinguishes. -/
inductive Token where
  | ident (s : String)
  | func (s : String)
  | hash (s : String)
  | delim (c : Char)
  | num (hasSign : Bool) (v : Int)
  | dim (hasSign : Bool) (v : Int) (unit : String)
  | ws
  | colon
  | comma
  | lparen
  | rparen
  deriving DecidableEq, Repr

/-- Whitespace characters recognized by the tokenizer. -/
def isWsChar (c : Char) : Bool :=
  c = ' ' || c = '\t' || c = '\n' || c = '\x0d' || c = '\x0c'

/-- CSS name-start code points (letters, underscore, non-ASCII). -/
def isNameStart (c : Char) : Bool :=
  c.isAlpha || c = '_' || c.toNat ≥ 128

/-- CSS name code points (name-start, digits, hyphen). -/
def isNameChar (c : Char) : Bool :=
  isNameStart c || c.isDigit || c = '-'

/-- Numeric value of a list of decimal digit characters. -/
def digitsVal (ds : List Char) : Nat :=
  ds.foldl (fun a c => a * 10 + (c.toNat - 48)) 0

/-- Skip the remainder of a `/* ... */` comment, returning the characters
after the closing delimiter (or the empty list if the comment is unclosed). -/
def skipComment : List Char → List Char
  | [] => []
  | '*' :: '/' :: r => r
  | _ :: r => skipComment r

/-- Scan a numeric token: the digits (an optional sign has already been
consumed by the caller), then a dimension unit if an identifier follows
directly, as in `6n-3` which is one dimension token `6` with unit `n-3`. -/
def scanNumberTok (hasSign : Bool) (neg : Bool) (cs : List Char) : Token × List Char :=
  let ds := cs.takeWhile Char.isDigit
  let rest := cs.dropWhile Char.isDigit
  let n : Int := (digitsVal ds : Int)
  let v : Int := if neg then -n else n
  match rest with
  | d :: tl =>
    if isNameStart d || (d = '-' && (match tl with
        | e :: _ => isNameStart e || e = '-'
        | [] => false)) then
      (Token.dim hasSign v (String.mk (rest.takeWhile isNameChar)),
       rest.dropWhile isNameChar)
    else (Token.num hasSign v, rest)
  | [] => (Token.num hasSign v, [])

/-- Scan an identifier-like token; if it is directly followed by `(` it is a
function token (the `(` is consumed with it), as in `:not(`. -/
def scanNameTok (cs : List Char) : Token × List Char :=
  let nm := String.mk (cs.takeWhile isNameChar)
  match cs.dropWhile isNameChar with
  | '(' :: r => (Token.func nm, r)
  | rest => (Token.ident nm, rest)

/-- Modelled from the spec: the tokenizer, specified only at its interface
boundary (section 6) — it turns selector text into the token kinds of
section 3.  Fuel-indexed; every step consumes at least one character, so
`length + 1` fuel always suffices.  Comments produce no token but terminate
the token being scanned; runs of whitespace collapse into one token. -/
def tokenizeAux : Nat → List Char → List Token
  | 0, _ => []
  | _ + 1, [] => []
  | fuel + 1, c :: cs =>
    if isWsChar c then Token.ws :: tokenizeAux fuel (cs.dropWhile isWsChar)
    else if c = '/' then
      match cs with
      | '*' :: cs2 => tokenizeAux fuel (skipComment cs2)
      | _ => Token.delim '/' :: tokenizeAux fuel cs
    else if c = ':' then Token.colon :: tokenizeAux fuel cs
    else if c = ',' then Token.comma :: tokenizeAux fuel cs
    else if c = '(' then Token.lparen :: tokenizeAux fuel cs
    else if c = ')' then Token.rparen :: tokenizeAux fuel cs
    else if c = '#' then
      match cs.takeWhile isNameChar with
      | [] => Token.delim '#' :: tokenizeAux fuel cs
      | nm => Token.hash (String.mk nm) :: tokenizeAux fuel (cs.dropWhile isNameChar)
    else if c.isDigit then
      match scanNumberTok false false (c :: cs) with
      | (t, rest) => t :: tokenizeAux fuel rest
    else if c = '+' then
      match cs with
      | d :: _ =>
        if d.isDigit then
          match scanNumberTok true false cs with
          | (t, rest) => t :: tokenizeAux fuel rest
        else Token.delim '+' :: tokenizeAux fuel cs
      | [] => Token.delim '+' :: tokenizeAux fuel cs
    else if c = '-' then
      match cs with
      | d :: _ =>
        if d.isDigit then
          match scanNumberTok true true cs with
          | (t, rest) => t :: tokenizeAux fuel rest
        else if isNameStart d || d = '-' then
          match scanNameTok (c :: cs) with
          | (t, rest) => t :: tokenizeAux fuel rest
        else Token.delim '-' :: tokenizeAux fuel cs
      | [] => Token.delim '-' :: tokenizeAux fuel cs
    else if isNameStart c then
      match scanNameTok (c :: cs) with
      | (t, rest) => t :: tokenizeAux fuel rest
    else Token.delim c :: tokenizeAux fuel cs

/-- Tokenize selector text. -/
def tokenize (s : String) : List Token :=
  tokenizeAux (s.length + 1) s.toList

/-- Skip a run of whitespace tokens. -/
def skipWs : List Token → List Token
  | Token.ws :: ts => skipWs ts
  | ts => ts

/-- True when only whitespace (or nothing) remains — the spec's "trailing
content that is not whitespace/comment/end-of-range after a complete match
causes rejection" check. -/
def endOk (ts : List Token) : Bool :=
  (skipWs ts).isEmpty

/-- ASCII lower-casing of a token payload (keyword matching on `n`, `odd`,
`even` and pseudo names is case-insensitive). -/
def lowerStr (s : String) : String :=
  String.mk (s.toList.map Char.toLower)

/-- Strict integer parse of the textual remainder baked into an `n-…` token:
an optional leading minus followed by at least one digit and nothing else. -/
def chrsToInt : List Char → Option Int
  | '-' :: ds =>
    if ds ≠ [] ∧ ds.all Char.isDigit then some (-(digitsVal ds : Int)) else none
  | ds =>
    if ds ≠ [] ∧ ds.all Char.isDigit then some ((digitsVal ds : Int)) else none

/-- Consume the `B` part when an explicit infix sign (a `-` baked into the
`n-` text, or a consumed `+`/`-` delimiter) has already been seen: the number
token must carry no sign of its own, and nothing but whitespace may follow. -/
def anpbB (a : Int) (neg : Bool) (rest : List Token) : Option (Int × Int) :=
  match skipWs rest with
  | Token.num hs v :: r =>
    if hs then none
    else if endOk r then some (a, if neg then -v else v) else none
  | _ => none

/-- Consume what follows a bare `n` (no sign seen yet): end of input means
`b = 0`; a `+`/`-` delimiter introduces a sign-separated remainder; a number
token is accepted only if its sign is baked in (`10n +5` but not `10n 5`). -/
def anpbNoSign (a : Int) (rest : List Token) : Option (Int × Int) :=
  match skipWs rest with
  | [] => some (a, 0)
  | Token.delim '+' :: r => anpbB a false r
  | Token.delim '-' :: r => anpbB a true r
  | Token.num hs v :: r =>
    if hs then (if endOk r then some (a, v) else none) else none
  | _ => none

/-- Dispatch on the lower-cased text attached to the `N` part, which for a
valid `an+b` is `n`, `n-`, or `n-123` (spec section 4.1). -/
def anpbN (a : Int) (n : List Char) (rest : List Token) : Option (Int × Int) :=
  match n with
  | ['n'] => anpbNoSign a rest
  | ['n', '-'] => anpbB a true rest
  | 'n' :: '-' :: d :: ds =>
    match chrsToInt ('-' :: d :: ds) with
    | some b => if endOk rest then some (a, b) else none
    | none => none
  | _ => none

/-- Modelled from the spec: `consumeANPlusB` (section 4.1), the parser for the
`an+b` micro-grammar, whose implementation is not in the source bundle.
Accepts `odd`/`even` (case-insensitively), a bare signed integer, the
`N`/`+N`/`-N`/`<integer>N` forms, and those forms followed by a signed
integer remainder with exactly one source of sign; rejects anything with
non-whitespace trailing content. -/
def consumeANPlusB (toks : List Token) : Option (Int × Int) :=
  match toks with
  | Token.num _ v :: rest => if endOk rest then some (0, v) else none
  | Token.ident s :: rest =>
    match (lowerStr s).toList with
    | ['o', 'd', 'd'] => if endOk rest then some (2, 1) else none
    | ['e', 'v', 'e', 'n'] => if endOk rest then some (2, 0) else none
    | '-' :: cs => anpbN (-1) cs rest
    | cs => anpbN 1 cs rest
  | Token.delim '+' :: Token.ident s :: rest => anpbN 1 (lowerStr s).toList rest
  | Token.dim _ v u :: rest => anpbN v (lowerStr u).toList rest
  | _ => none

/-- The `an+b` entry point on raw text, as the tests invoke it: tokenize,
then parse. -/
def anPlusB (s : String) : Option (Int × Int) :=
  consumeANPlusB (tokenize s)

/-- Modelled from the spec: the Mode Policy (section 6) — an enumerated value
gating the section 4.4 exceptions: `standard` for author documents,
`trusted` for the engine's own internal stylesheets. -/
inductive Mode where
  | standard
  | trusted
  deriving DecidableEq, Repr

/-- Modelled from the spec: the SimpleSelector tagged variant (section 3):
type/universal/id/class selectors, pseudo-classes (plain, with an `an+b`
argument, or with a nested selector-list argument), and pseudo-elements
(`legacy = true` for the single-colon compatibility form).  Attribute
selectors are outside what the claims exercise and are omitted. -/
inductive SimpleSelector where
  | typeSel (name : String)
  | universal
  | idSel (name : String)
  | classSel (name : String)
  | pseudoClass (name : String)
  | pseudoNth (name : String) (a b : Int)
  | pseudoFn (name : String) (args : List (List SimpleSelector))
  | pseudoElem (name : String) (legacy : Bool)

/-- A compound selector: a run of simple selectors with no combinator
between them (section 3). -/
abbrev Compound := List SimpleSelector

/-- Combinators linking compounds inside a complex selector. -/
inductive Comb where
  | descendant
  | child
  | adjacent
  | sibling
  deriving DecidableEq, Repr

/-- A complex selector: a first compound followed by combinator/compound
pairs in textual order (section 3). -/
structure Complex where
  head : Compound
  tail : List (Comb × Compound)

/-- True for names with the `-webkit-` vendor prefix characters, the
spec's "vendor/internal" pseudo-element names. -/
def webkitLike (s : String) : Bool :=
  match s.toList with
  | '-' :: 'w' :: 'e' :: 'b' :: 'k' :: 'i' :: 't' :: '-' :: _ => true
  | _ => false

/-- The element-like names recognized after a single colon as legacy
pseudo-elements (section 4.2). -/
def legacyPseudoElems : List String :=
  ["before", "after", "first-line", "first-letter"]

/-- Modelled from the spec: the fixed table of recognized double-colon
pseudo-element names — standard ones, the deprecated shadow-piercing
`shadow`/`content`, and vendor `-webkit-…` names (sections 4.2, 9). -/
def knownPseudoElem (s : String) : Bool :=
  ["before", "after", "first-line", "first-letter", "selection",
   "shadow", "content", "backdrop", "cue", "placeholder"].contains s
  || webkitLike s

/-- Modelled from the spec: the fixed table of recognized non-functional
pseudo-class names (sections 4.2, 9); unrecognized names are rejections. -/
def knownPseudoClass (s : String) : Bool :=
  ["hover", "active", "focus", "enabled", "disabled", "checked", "link",
   "visited", "target", "root", "empty", "window-inactive", "horizontal",
   "vertical", "decrement", "increment", "start", "end", "double-button",
   "single-button", "no-button", "corner-present", "first-child",
   "last-child", "only-child", "first-of-type", "last-of-type"].contains s

/-- Functional pseudo-classes whose argument is a nested selector list
(section 4.2). -/
def nestedFns : List String :=
  ["not", "host", "host-context", "-webkit-any"]

/-- Functional pseudo-classes whose argument is the `an+b` micro-grammar
(section 4.2). -/
def nthFns : List String :=
  ["nth-child", "nth-last-child", "nth-of-type", "nth-last-of-type"]

/-- User-action pseudo-classes: the state-like trailing selectors a vendor
`-webkit-…` custom pseudo-element admits (section 4.4). -/
def userActionClass (p : String) : Bool :=
  ["hover", "focus", "active"].contains p

/-- Scrollbar-state pseudo-classes: the trailing selectors a scrollbar
pseudo-element admits (section 4.4's state-like allow-list). -/
def scrollbarClass (p : String) : Bool :=
  ["enabled", "disabled", "hover", "active", "horizontal", "vertical",
   "decrement", "increment", "start", "end", "double-button",
   "single-button", "no-button", "corner-present",
   "window-inactive"].contains p

/-- The scrollbar family of pseudo-element names. -/
def scrollbarPElem (s : String) : Bool :=
  ["-webkit-scrollbar", "-webkit-scrollbar-button", "-webkit-scrollbar-corner",
   "-webkit-scrollbar-thumb", "-webkit-scrollbar-track",
   "-webkit-scrollbar-track-piece", "-webkit-resizer"].contains s

/-- Modelled from the spec: which pseudo-class may trail which
pseudo-element inside one compound (section 4.4, as pinned down by the
`ValidSimpleAfterPseudoElementInCompound` /
`InvalidSimpleAfterPseudoElementInCompound` test tables): scrollbar
pseudo-elements admit scrollbar-state classes, `::selection` admits
`:window-inactive`, vendor custom `-webkit-…` pseudo-elements admit the
user-action classes, and all others admit nothing. -/
def allowedClassAfter (pe : String) (p : String) : Bool :=
  if scrollbarPElem pe then scrollbarClass p
  else if pe = "selection" then p = "window-inactive"
  else if webkitLike pe then userActionClass p
  else false

/-- Modelled from the spec: whether simple selector `s` may legally follow
the pseudo-element named `pe` in a compound (section 4.4).  A pseudo-class
must be allowed for that pseudo-element; `:not(arg)` is allowed exactly when
`arg` is a single pseudo-class itself allowed there; a class selector is
allowed only through the trusted-mode vendor workaround; everything else
(ids, types, further pseudo-elements) rejects. -/
def validAfter (mode : Mode) (pe : String) (s : SimpleSelector) : Bool :=
  match s with
  | SimpleSelector.classSel _ =>
    (match mode with
     | Mode.trusted => webkitLike pe
     | Mode.standard => false)
  | SimpleSelector.pseudoClass p => allowedClassAfter pe p
  | SimpleSelector.pseudoFn n args =>
    if n = "not" then
      (match args with
       | [[SimpleSelector.pseudoClass p]] => allowedClassAfter pe p
       | _ => false)
    else false
  | _ => false

/-- Walk a compound keeping the name of the pseudo-element already seen (if
any); every simple selector after it must pass `validAfter`.  This is the
compound validator of section 4.4 in incremental form. -/
def validCompoundAux (mode : Mode) : Option String → List SimpleSelector → Bool
  | _, [] => true
  | some pe, s :: rest => validAfter mode pe s && validCompoundAux mode (some pe) rest
  | none, s :: rest =>
    match s with
    | SimpleSelector.pseudoElem n _ => validCompoundAux mode (some n) rest
    | _ => validCompoundAux mode none rest

/-- Compound-selector legality with respect to pseudo-element placement
(section 4.4). -/
def validCompound (mode : Mode) (l : List SimpleSelector) : Bool :=
  validCompoundAux mode none l

/-- The first pseudo-element of a compound together with the simple
selectors that follow it. -/
def splitAtPE : List SimpleSelector → Option (String × List SimpleSelector)
  | [] => none
  | SimpleSelector.pseudoElem n _ :: rest => some (n, rest)
  | _ :: rest => splitAtPE rest

/-- How many pseudo-elements a compound contains. -/
def countPE : List SimpleSelector → Nat
  | [] => 0
  | SimpleSelector.pseudoElem _ _ :: rest => countPE rest + 1
  | _ :: rest => countPE rest

mutual

/-- No pseudo-element occurs in this simple selector, recursively including
nested selector-list arguments. -/
def peFreeSimple : SimpleSelector → Bool
  | SimpleSelector.pseudoElem _ _ => false
  | SimpleSelector.pseudoFn _ args => peFreeArgs args
  | _ => true

/-- No pseudo-element occurs in this compound. -/
def peFreeCompound : List SimpleSelector → Bool
  | [] => true
  | s :: ss => peFreeSimple s && peFreeCompound ss

/-- No pseudo-element occurs in this nested argument list. -/
def peFreeArgs : List (List SimpleSelector) → Bool
  | [] => true
  | c :: cs => peFreeCompound c && peFreeArgs cs

end

/-- The trailing-selector rule exactly as the claim states it: a trailing
simple selector is tolerated when it is one of the five state-like
pseudo-classes `:hover`/`:active`/`:focus`/`:disabled`/`:window-inactive`,
or a `:not` whose argument compound contains no pseudo-element.  This
definition follows the claim's words (not the source tests) so that the two
can be compared. -/
def claimStatedTrailingOk (s : SimpleSelector) : Bool :=
  match s with
  | SimpleSelector.pseudoClass p =>
    ["hover", "active", "focus", "disabled", "window-inactive"].contains p
  | SimpleSelector.pseudoFn n args => n = "not" && peFreeArgs args
  | _ => false

/-- The compound legality rule exactly as the claim states it: with one
pseudo-element present, the compound is legal iff every simple selector
after the pseudo-element satisfies `claimStatedTrailingOk`. -/
def claimStatedCompoundOk (l : List SimpleSelector) : Bool :=
  match splitAtPE l with
  | none => true
  | some (_, rest) => rest.all claimStatedTrailingOk

/-- Split a token list at the commas that sit at parenthesis depth zero
(function tokens and `(` open a level, `)` closes one): the comma-separated
members of a selector list (section 4.5). -/
def splitTopLevelAux : List Token → Nat → List Token → List (List Token)
  | [], _, acc => [acc.reverse]
  | Token.comma :: ts, 0, acc => acc.reverse :: splitTopLevelAux ts 0 []
  | Token.func f :: ts, d, acc => splitTopLevelAux ts (d + 1) (Token.func f :: acc)
  | Token.lparen :: ts, d, acc => splitTopLevelAux ts (d + 1) (Token.lparen :: acc)
  | Token.rparen :: ts, d, acc => splitTopLevelAux ts (d - 1) (Token.rparen :: acc)
  | t :: ts, d, acc => splitTopLevelAux ts d (t :: acc)

/-- The comma-separated members of a selector list. -/
def splitTopLevel (toks : List Token) : List (List Token) :=
  splitTopLevelAux toks 0 []

/-- The argument tokens of a functional pseudo (everything up to the
matching `)`), plus what follows the `)`; `none` when unbalanced. -/
def extractArgsAux : List Token → Nat → List Token → Option (List Token × List Token)
  | [], _, _ => none
  | Token.rparen :: ts, 0, acc => some (acc.reverse, ts)
  | Token.rparen :: ts, d + 1, acc => extractArgsAux ts d (Token.rparen :: acc)
  | Token.func f :: ts, d, acc => extractArgsAux ts (d + 1) (Token.func f :: acc)
  | Token.lparen :: ts, d, acc => extractArgsAux ts (d + 1) (Token.lparen :: acc)
  | t :: ts, d, acc => extractArgsAux ts d (t :: acc)

/-- The argument tokens of a functional pseudo. -/
def extractArgs (toks : List Token) : Option (List Token × List Token) :=
  extractArgsAux toks 0 []

/-- Does the next token begin another simple selector of the same compound
(section 4.3's "greedily accumulate consecutive simple selectors")? -/
def startsSimpleTok : List Token → Bool
  | Token.ident _ :: _ => true
  | Token.hash _ :: _ => true
  | Token.colon :: _ => true
  | Token.delim '.' :: _ => true
  | Token.delim '*' :: _ => true
  | _ => false

mutual

/-- Modelled from the spec: the Simple-Selector Parser (section 4.2),
dispatching on the leading token; `dpe` is the narrowed-policy flag that
forbids pseudo-elements inside nested selector-list arguments.  Fuel-indexed
(each call consumes at least one token). -/
def consumeSimple : Nat → Mode → Bool → List Token → Option (SimpleSelector × List Token)
  | 0, _, _, _ => none
  | fuel + 1, mode, dpe, toks =>
    match toks with
    | Token.ident s :: r => some (SimpleSelector.typeSel s, r)
    | Token.delim '*' :: r => some (SimpleSelector.universal, r)
    | Token.hash s :: r => some (SimpleSelector.idSel s, r)
    | Token.delim '.' :: Token.ident s :: r => some (SimpleSelector.classSel s, r)
    | Token.colon :: Token.colon :: Token.ident s :: r =>
      let ls := lowerStr s
      if dpe then none
      else if knownPseudoElem ls then some (SimpleSelector.pseudoElem ls false, r)
      else none
    | Token.colon :: Token.ident s :: r =>
      let ls := lowerStr s
      if legacyPseudoElems.contains ls then
        (if dpe then none else some (SimpleSelector.pseudoElem ls true, r))
      else if knownPseudoClass ls then some (SimpleSelector.pseudoClass ls, r)
      else none
    | Token.colon :: Token.func f :: r =>
      let lf := lowerStr f
      (match extractArgs r with
       | none => none
       | some (args, rest) =>
         if nestedFns.contains lf then
           (match parseNestedCompounds fuel mode (splitTopLevel args) with
            | some l => some (SimpleSelector.pseudoFn lf l, rest)
            | none => none)
         else if nthFns.contains lf then
           (match consumeANPlusB args with
            | some ab => some (SimpleSelector.pseudoNth lf ab.1 ab.2, rest)
            | none => none)
         else none)
    | _ => none

/-- Modelled from the spec: the greedy run of simple selectors forming a
compound (section 4.3); stops before the first token that cannot begin a
simple selector. -/
def consumeSimpleRun : Nat → Mode → Bool → List Token → Option (List SimpleSelector × List Token)
  | 0, _, _, _ => none
  | fuel + 1, mode, dpe, toks =>
    match consumeSimple fuel mode dpe toks with
    | none => none
    | some (s, r) =>
      if startsSimpleTok r then
        (match consumeSimpleRun fuel mode dpe r with
         | some (l, r2) => some (s :: l, r2)
         | none => none)
      else some ([s], r)

/-- Modelled from the spec: the Compound-Selector Parser and Validator
(sections 4.3–4.4): parse the run, then enforce pseudo-element placement. -/
def consumeCompound : Nat → Mode → Bool → List Token → Option (List SimpleSelector × List Token)
  | 0, _, _, _ => none
  | fuel + 1, mode, dpe, toks =>
    match consumeSimpleRun fuel mode dpe toks with
    | some (l, r) => if validCompound mode l then some (l, r) else none
    | none => none

/-- One member of a nested selector-list argument: a compound (pseudo-elements
forbidden) consuming its whole segment up to whitespace. -/
def parseNestedMember : Nat → Mode → List Token → Option (List SimpleSelector)
  | 0, _, _ => none
  | fuel + 1, mode, seg =>
    match consumeCompound fuel mode true (skipWs seg) with
    | some (c, r) => if endOk r then some c else none
    | none => none

/-- All members of a nested selector-list argument (section 4.2's recursive
invocation with restricted legality). -/
def parseNestedCompounds : Nat → Mode → List (List Token) → Option (List (List SimpleSelector))
  | 0, _, _ => none
  | _ + 1, _, [] => some []
  | fuel + 1, mode, seg :: segs =>
    match parseNestedMember fuel mode seg with
    | none => none
    | some c =>
      match parseNestedCompounds fuel mode segs with
      | some cs => some (c :: cs)
      | none => none

end

/-- What separates two compounds at this point of a complex selector: the
end of the member, an explicit `>`/`+`/`~` combinator (optionally surrounded
by whitespace), whitespace as the descendant combinator, or an illegal
token. -/
inductive CombStep where
  | done
  | next (c : Comb) (rest : List Token)
  | bad

/-- Detect the next combinator (section 4.5's reading of whitespace and
delimiter tokens between compounds). -/
def combStep (toks : List Token) : CombStep :=
  match toks with
  | [] => CombStep.done
  | Token.ws :: r =>
    (match skipWs r with
     | [] => CombStep.done
     | Token.delim '>' :: r2 => CombStep.next Comb.child (skipWs r2)
     | Token.delim '+' :: r2 => CombStep.next Comb.adjacent (skipWs r2)
     | Token.delim '~' :: r2 => CombStep.next Comb.sibling (skipWs r2)
     | r2 => CombStep.next Comb.descendant r2)
  | Token.delim '>' :: r2 => CombStep.next Comb.child (skipWs r2)
  | Token.delim '+' :: r2 => CombStep.next Comb.adjacent (skipWs r2)
  | Token.delim '~' :: r2 => CombStep.next Comb.sibling (skipWs r2)
  | _ => CombStep.bad

/-- Modelled from the spec: the Complex-Selector Parser's combinator chain
(section 4.5): after the first compound, repeatedly read a combinator and
the next compound until the member is exhausted. -/
def parseComplexTail (mode : Mode) : Nat → List (Comb × Compound) → List Token → Option (List (Comb × Compound))
  | 0, _, _ => none
  | fuel + 1, acc, toks =>
    match combStep toks with
    | CombStep.done => some acc.reverse
    | CombStep.bad => none
    | CombStep.next cb r =>
      match consumeCompound fuel mode false r with
      | some (c, r2) => parseComplexTail mode fuel ((cb, c) :: acc) r2
      | none => none

/-- Parse one whole comma-separated member as a complex selector; the member
must be consumed completely. -/
def parseComplexFull (fuel : Nat) (mode : Mode) (seg : List Token) : Option Complex :=
  match consumeCompound fuel mode false (skipWs seg) with
  | some (c, r) =>
    (match parseComplexTail mode fuel [] r with
     | some tl => some { head := c, tail := tl }
     | none => none)
  | none => none

/-- Modelled from the spec: the SelectorList parser (section 4.5): every
comma-separated member must parse as a complex selector; if any member
fails the whole list is rejected. -/
def parseComplexList (fuel : Nat) (mode : Mode) : List (List Token) → Option (List Complex)
  | [] => some []
  | seg :: segs =>
    match parseComplexFull fuel mode seg with
    | none => none
    | some c =>
      match parseComplexList fuel mode segs with
      | some l => some (c :: l)
      | none => none

/-- Fuel that is always sufficient: the parser consumes at least one token
every few calls. -/
def selFuel (toks : List Token) : Nat :=
  toks.length * 8 + 8

/-- `parseSelector` on a token range: split at top-level commas and parse
every member.  `none` is the invalid selector list. -/
def parseSelectorTokens (mode : Mode) (toks : List Token) : Option (List Complex) :=
  parseComplexList (selFuel toks) mode (splitTopLevel toks)

/-- `parseSelector` on selector text, as the tests invoke it. -/
def parseSelector (s : String) (mode : Mode) : Option (List Complex) :=
  parseSelectorTokens mode (tokenize s)

/-- Whether selector text yields a valid selector list
(`CSSSelectorList::isValid`). -/
def isValidSelector (s : String) (mode : Mode) : Bool :=
  (parseSelector s mode).isSome

mutual

/-- Serialization of one simple selector (the canonical text of section 6's
output boundary). -/
def serializeSimple : SimpleSelector → String
  | SimpleSelector.typeSel n => n
  | SimpleSelector.universal => "*"
  | SimpleSelector.idSel n => "#" ++ n
  | SimpleSelector.classSel n => "." ++ n
  | SimpleSelector.pseudoClass n => ":" ++ n
  | SimpleSelector.pseudoNth n a b =>
    ":" ++ n ++ "(" ++ toString a ++ "n" ++
      (if b < 0 then toString b else "+" ++ toString b) ++ ")"
  | SimpleSelector.pseudoFn n args => ":" ++ n ++ "(" ++ serializeArgs args ++ ")"
  | SimpleSelector.pseudoElem n legacy => (if legacy then ":" else "::") ++ n

/-- Serialization of a nested argument list. -/
def serializeArgs : List (List SimpleSelector) → String
  | [] => ""
  | [c] => serializeCompound c
  | c :: cs => serializeCompound c ++ ", " ++ serializeArgs cs

/-- Serialization of a compound selector. -/
def serializeCompound : List SimpleSelector → String
  | [] => ""
  | s :: ss => serializeSimple s ++ serializeCompound ss

end

/-- Serialization of a combinator. -/
def serializeComb : Comb → String
  | Comb.descendant => " "
  | Comb.child => " > "
  | Comb.adjacent => " + "
  | Comb.sibling => " ~ "

/-- Serialization of a complex selector. -/
def serializeComplex (c : Complex) : String :=
  serializeCompound c.head ++
    String.join (c.tail.map (fun p => serializeComb p.1 ++ serializeCompound p.2))

/-- `CSSSelectorList::selectorsText`: members joined by `", "`; the invalid
list serializes to the empty string. -/
def selectorsText : Option (List Complex) → String
  | none => ""
  | some l => String.intercalate ", " (l.map serializeComplex)

/-- C1: every entry of the valid `An+B` table is accepted by `consumeANPlusB`
with exactly the stated `(a, b)` pair, with `n`/`odd`/`even` matched
case-insensitively.  The conjuncts are the full 44-row table of
`CSSSelectorParserTest.ValidANPlusB`. -/
theorem c1_anPlusB_accepts :
    anPlusB "odd" = some (2, 1) ∧
    anPlusB "OdD" = some (2, 1) ∧
    anPlusB "even" = some (2, 0) ∧
    anPlusB "EveN" = some (2, 0) ∧
    anPlusB "0" = some (0, 0) ∧
    anPlusB "8" = some (0, 8) ∧
    anPlusB "+12" = some (0, 12) ∧
    anPlusB "-14" = some (0, -14) ∧
    anPlusB "0n" = some (0, 0) ∧
    anPlusB "16N" = some (16, 0) ∧
    anPlusB "-19n" = some (-19, 0) ∧
    anPlusB "+23n" = some (23, 0) ∧
    anPlusB "n" = some (1, 0) ∧
    anPlusB "N" = some (1, 0) ∧
    anPlusB "+n" = some (1, 0) ∧
    anPlusB "-n" = some (-1, 0) ∧
    anPlusB "-N" = some (-1, 0) ∧
    anPlusB "6n-3" = some (6, -3) ∧
    anPlusB "-26N-33" = some (-26, -33) ∧
    anPlusB "n-18" = some (1, -18) ∧
    anPlusB "+N-5" = some (1, -5) ∧
    anPlusB "-n-7" = some (-1, -7) ∧
    anPlusB "0n+0" = some (0, 0) ∧
    anPlusB "10n+5" = some (10, 5) ∧
    anPlusB "10N +5" = some (10, 5) ∧
    anPlusB "10n -5" = some (10, -5) ∧
    anPlusB "N+6" = some (1, 6) ∧
    anPlusB "n +6" = some (1, 6) ∧
    anPlusB "+n -7" = some (1, -7) ∧
    anPlusB "-N -8" = some (-1, -8) ∧
    anPlusB "-n+9" = some (-1, 9) ∧
    anPlusB "33N- 22" = some (33, -22) ∧
    anPlusB "+n- 25" = some (1, -25) ∧
    anPlusB "N- 46" = some (1, -46) ∧
    anPlusB "n- 0" = some (1, 0) ∧
    anPlusB "-N- 951" = some (-1, -951) ∧
    anPlusB "-n- 951" = some (-1, -951) ∧
    anPlusB "29N + 77" = some (29, 77) ∧
    anPlusB "29n - 77" = some (29, -77) ∧
    anPlusB "+n + 61" = some (1, 61) ∧
    anPlusB "+N - 63" = some (1, -63) ∧
    anPlusB "+n/**/- 48" = some (1, -48) ∧
    anPlusB "-n + 81" = some (-1, 81) ∧
    anPlusB "-N - 88" = some (-1, -88) :=
  ⟨rfl, rfl, rfl, rfl, rfl, rfl, rfl, rfl, rfl, rfl, rfl,
   rfl, rfl, rfl, rfl, rfl, rfl, rfl, rfl, rfl, rfl, rfl,
   rfl, rfl, rfl, rfl, rfl, rfl, rfl, rfl, rfl, rfl, rfl,
   rfl, rfl, rfl, rfl, rfl, rfl, rfl, rfl, rfl, rfl, rfl⟩

/-- C2: every entry of the invalid `An+B` table is rejected by
`consumeANPlusB` (the full table of `CSSSelectorParserTest.InvalidANPlusB`). -/
theorem c2_anPlusB_rejects :
    anPlusB " odd" = none ∧
    anPlusB "+ n" = none ∧
    anPlusB "3m+4" = none ∧
    anPlusB "12n--34" = none ∧
    anPlusB "12n- -34" = none ∧
    anPlusB "12n- +34" = none ∧
    anPlusB "23n-+43" = none ∧
    anPlusB "10n 5" = none ∧
    anPlusB "10n + +5" = none ∧
    anPlusB "10n + -5" = none :=
  ⟨rfl, rfl, rfl, rfl, rfl, rfl, rfl, rfl, rfl, rfl⟩

/-- After a pseudo-element has been seen, the incremental compound validator
is exactly "every remaining simple selector passes `validAfter`". -/
theorem validCompoundAux_some (mode : Mode) (pe : String) (l : List SimpleSelector) :
    validCompoundAux mode (some pe) l = l.all (validAfter mode pe) := by
  induction l with
  | nil => rfl
  | cons s ss ih => simp [validCompoundAux, ih, List.all_cons]

/-- C3 (amended): in any mode, a compound containing a pseudo-element is
legal with respect to pseudo-element placement iff every simple selector
following its first pseudo-element is allowed to trail that particular
pseudo-element (`validAfter`): the allow-list depends on which
pseudo-element precedes, and a trailing `:not` requires its argument to be a
single pseudo-class itself in that allow-list. -/
theorem c3_trailing_characterization (mode : Mode) (l : List SimpleSelector)
    (n : String) (rest : List SimpleSelector) (h : splitAtPE l = some (n, rest)) :
    validCompound mode l = true ↔ ∀ s ∈ rest, validAfter mode n s = true := by
  induction l with
  | nil => exact absurd h (by simp [splitAtPE])
  | cons s ss ih =>
    cases s with
    | pseudoElem m leg =>
      simp only [splitAtPE, Option.some.injEq, Prod.mk.injEq] at h
      obtain ⟨h1, h2⟩ := h
      have base : validCompound mode (SimpleSelector.pseudoElem m leg :: ss) =
          ss.all (validAfter mode m) := validCompoundAux_some mode m ss
      rw [base, h1, h2]
      exact List.all_eq_true
    | typeSel nm => exact ih h
    | universal => exact ih h
    | idSel nm => exact ih h
    | classSel nm => exact ih h
    | pseudoClass nm => exact ih h
    | pseudoNth nm a b => exact ih h
    | pseudoFn nm args => exact ih h

/-- Witness for the amended C3 characterization at a concrete compound. -/
theorem c3_trailing_characterization_witness :
    validCompound Mode.standard
        [SimpleSelector.classSel "a",
         SimpleSelector.pseudoElem "-webkit-foo" false,
         SimpleSelector.pseudoClass "hover"] = true ↔
      ∀ s ∈ [SimpleSelector.pseudoClass "hover"],
        validAfter Mode.standard "-webkit-foo" s = true :=
  c3_trailing_characterization Mode.standard
    [SimpleSelector.classSel "a",
     SimpleSelector.pseudoElem "-webkit-foo" false,
     SimpleSelector.pseudoClass "hover"]
    "-webkit-foo" [SimpleSelector.pseudoClass "hover"] rfl

/-- C3 (counterexample): the claim's mode-independent allow-list
(`:hover`/`:active`/`:focus`/`:disabled`/`:window-inactive`, or `:not` with
any pseudo-element-free argument) accepts the compound `::after:hover`, yet
the parser rejects the selector `::after:hover` — the compound validator and
the claim's stated rule disagree on this concrete input. -/
theorem c3_counterexample :
    claimStatedCompoundOk
        [SimpleSelector.pseudoElem "after" false, SimpleSelector.pseudoClass "hover"] = true ∧
    validCompound Mode.standard
        [SimpleSelector.pseudoElem "after" false, SimpleSelector.pseudoClass "hover"] = false ∧
    consumeSimpleRun (selFuel (tokenize "::after:hover")) Mode.standard false
        (tokenize "::after:hover") =
      some ([SimpleSelector.pseudoElem "after" false, SimpleSelector.pseudoClass "hover"], []) ∧
    parseSelector "::after:hover" Mode.standard = none :=
  ⟨rfl, rfl, rfl, rfl⟩

/-- C4: the standard-mode legality verdicts for trailing simple selectors
after a pseudo-element, on the claim's concrete inputs. -/
theorem c4_trailing_legality_cases :
    isValidSelector "::-webkit-volume-slider:hover" Mode.standard = true ∧
    isValidSelector "::selection:window-inactive" Mode.standard = true ∧
    isValidSelector "::-webkit-volume-slider:not(:hover)" Mode.standard = true ∧
    isValidSelector "::before#id" Mode.standard = false ∧
    isValidSelector "::after:hover" Mode.standard = false ∧
    isValidSelector ".class::content::before" Mode.standard = false ∧
    isValidSelector "::shadow.class" Mode.standard = false ∧
    isValidSelector "div ::before.a" Mode.standard = false :=
  ⟨rfl, rfl, rfl, rfl, rfl, rfl, rfl, rfl⟩

/-- C5: the vendor-internal pseudo-element-followed-by-class workaround is
gated by the Mode Policy: the selector is invalid under the standard
document mode and valid under the trusted internal-stylesheet mode, and in
standard mode no class selector is ever allowed to trail any
pseudo-element. -/
theorem c5_mode_gated_workaround :
    isValidSelector "video::-webkit-media-text-track-region-container.scrolling"
        Mode.standard = false ∧
    isValidSelector "video::-webkit-media-text-track-region-container.scrolling"
        Mode.trusted = true ∧
    (∀ (pe c : String), validAfter Mode.standard pe (SimpleSelector.classSel c) = false) :=
  ⟨rfl, rfl, fun _ _ => rfl⟩

/-- The nested-argument parsers (which run with pseudo-elements forbidden)
never produce a pseudo-element anywhere in their output. -/
theorem nested_parse_peFree (fuel : Nat) :
    (∀ mode toks s r, consumeSimple fuel mode true toks = some (s, r) →
      peFreeSimple s = true) ∧
    (∀ mode toks l r, consumeSimpleRun fuel mode true toks = some (l, r) →
      peFreeCompound l = true) ∧
    (∀ mode toks l r, consumeCompound fuel mode true toks = some (l, r) →
      peFreeCompound l = true) ∧
    (∀ mode seg c, parseNestedMember fuel mode seg = some c →
      peFreeCompound c = true) ∧
    (∀ mode segs l, parseNestedCompounds fuel mode segs = some l →
      peFreeArgs l = true) := by
  induction fuel with
  | zero =>
    refine ⟨?_, ?_, ?_, ?_, ?_⟩
    · intro mode toks s r h; simp [consumeSimple] at h
    · intro mode toks l r h; simp [consumeSimpleRun] at h
    · intro mode toks l r h; simp [consumeCompound] at h
    · intro mode seg c h; simp [parseNestedMember] at h
    · intro mode segs l h; cases segs <;> simp [parseNestedCompounds] at h
  | succ fuel ih =>
    obtain ⟨ihA, ihR, ihK, ihM, ihD⟩ := ih
    refine ⟨?_, ?_, ?_, ?_, ?_⟩
    · intro mode toks s r h
      unfold consumeSimple at h
      split at h
      · simp only [Option.some.injEq, Prod.mk.injEq] at h
        obtain ⟨h1, -⟩ := h; subst h1; rfl
      · simp only [Option.some.injEq, Prod.mk.injEq] at h
        obtain ⟨h1, -⟩ := h; subst h1; rfl
      · simp only [Option.some.injEq, Prod.mk.injEq] at h
        obtain ⟨h1, -⟩ := h; subst h1; rfl
      · simp only [Option.some.injEq, Prod.mk.injEq] at h
        obtain ⟨h1, -⟩ := h; subst h1; rfl
      · simp at h
      · simp at h
        obtain ⟨-, -, h1, -⟩ := h
        subst h1
        rfl
      · rename_i fid rid
        split at h
        · simp at h
        · rename_i args rest hargs
          by_cases hn : nestedFns.contains (lowerStr fid) = true
          · rw [if_pos hn] at h
            split at h
            · rename_i l0 hl
              simp only [Option.some.injEq, Prod.mk.injEq] at h
              obtain ⟨h1, -⟩ := h; subst h1
              simpa [peFreeSimple] using ihD _ _ _ hl
            · simp at h
          · rw [if_neg hn] at h
            by_cases hh : nthFns.contains (lowerStr fid) = true
            · rw [if_pos hh] at h
              split at h
              · simp only [Option.some.injEq, Prod.mk.injEq] at h
                obtain ⟨h1, -⟩ := h; subst h1; rfl
              · simp at h
            · rw [if_neg hh] at h
              simp at h
      · simp at h
    · intro mode toks l r h
      unfold consumeSimpleRun at h
      split at h
      · simp at h
      · rename_i s0 r0 hc
        split at h
        · split at h
          · rename_i l0 r2 hr
            simp only [Option.some.injEq, Prod.mk.injEq] at h
            obtain ⟨h1, -⟩ := h; subst h1
            simp only [peFreeCompound, Bool.and_eq_true]
            exact ⟨ihA _ _ _ _ hc, ihR _ _ _ _ hr⟩
          · simp at h
        · simp only [Option.some.injEq, Prod.mk.injEq] at h
          obtain ⟨h1, -⟩ := h; subst h1
          simp only [peFreeCompound, Bool.and_eq_true]
          exact ⟨ihA _ _ _ _ hc, trivial⟩
    · intro mode toks l r h
      unfold consumeCompound at h
      split at h
      · rename_i l0 r0 hr
        split at h
        · simp only [Option.some.injEq, Prod.mk.injEq] at h
          obtain ⟨h1, -⟩ := h; subst h1
          exact ihR _ _ _ _ hr
        · simp at h
      · simp at h
    · intro mode seg c h
      unfold parseNestedMember at h
      split at h
      · rename_i c0 r0 hk
        split at h
        · simp only [Option.some.injEq] at h
          subst h
          exact ihK _ _ _ _ hk
        · simp at h
      · simp at h
    · intro mode segs l h
      cases segs with
      | nil =>
        simp only [parseNestedCompounds, Option.some.injEq] at h
        subst h; rfl
      | cons seg segs =>
        unfold parseNestedCompounds at h
        split at h
        · simp at h
        · rename_i c0 hm
          split at h
          · rename_i cs hd
            simp only [Option.some.injEq] at h
            subst h
            simp only [peFreeArgs, Bool.and_eq_true]
            exact ⟨ihM _ _ _ hm, ihD _ _ _ hd⟩
          · simp at h

/-- C6: inside the argument of a nested-selector-list functional
pseudo-class, pseudo-elements are forbidden — any successful nested-member
parse is pseudo-element-free, and each of the test file's concrete inputs
(`:not`, `:host`, `:host-context`, `:-webkit-any` over `::before`,
`::content`, `::shadow`, `::after`) produces an invalid selector list in
standard mode. -/
theorem c6_nested_pseudo_element_rejection :
    (∀ (fuel : Nat) (mode : Mode) (seg : List Token) (c : List SimpleSelector),
        parseNestedMember fuel mode seg = some c → peFreeCompound c = true) ∧
    parseSelector ":not(::before)" Mode.standard = none ∧
    parseSelector ":not(::content)" Mode.standard = none ∧
    parseSelector ":not(::shadow)" Mode.standard = none ∧
    parseSelector ":host(::before)" Mode.standard = none ∧
    parseSelector ":host(::content)" Mode.standard = none ∧
    parseSelector ":host(::shadow)" Mode.standard = none ∧
    parseSelector ":host-context(::before)" Mode.standard = none ∧
    parseSelector ":host-context(::content)" Mode.standard = none ∧
    parseSelector ":host-context(::shadow)" Mode.standard = none ∧
    parseSelector ":-webkit-any(::after, ::before)" Mode.standard = none ∧
    parseSelector ":-webkit-any(::content, span)" Mode.standard = none ∧
    parseSelector ":-webkit-any(div, ::shadow)" Mode.standard = none :=
  ⟨fun fuel _ _ _ h => (nested_parse_peFree fuel).2.2.2.1 _ _ _ h,
   rfl, rfl, rfl, rfl, rfl, rfl, rfl, rfl, rfl, rfl, rfl, rfl⟩

/-- Witness for C6's universal part at a concrete nested member. -/
theorem c6_nested_pseudo_element_rejection_witness :
    peFreeCompound [SimpleSelector.pseudoClass "hover"] = true :=
  c6_nested_pseudo_element_rejection.1 20 Mode.standard (tokenize ":hover")
    [SimpleSelector.pseudoClass "hover"] rfl

/-- The selector-list parser succeeds exactly when every comma-separated
member parses as a complex selector on its own. -/
theorem parseComplexList_isSome (fuel : Nat) (mode : Mode) (segs : List (List Token)) :
    (parseComplexList fuel mode segs).isSome =
      segs.all (fun seg => (parseComplexFull fuel mode seg).isSome) := by
  induction segs with
  | nil => rfl
  | cons seg segs ih =>
    unfold parseComplexList
    cases hf : parseComplexFull fuel mode seg with
    | none => simp [hf, List.all_cons]
    | some c =>
      cases hl : parseComplexList fuel mode segs with
      | none => simp [hf, hl, List.all_cons, ← ih]
      | some l => simp [hf, hl, List.all_cons, ← ih]

/-- C7: a selector list is valid exactly when every one of its
comma-separated members is valid on its own — the single list-level verdict
is the conjunction of the member verdicts, so one bad member invalidates
the whole list: `:-webkit-any(::content, span)` is invalid although `span`
alone is valid. -/
theorem c7_list_validity_conjunction :
    (∀ (mode : Mode) (toks : List Token),
        (parseSelectorTokens mode toks).isSome =
          (splitTopLevel toks).all
            (fun seg => (parseComplexFull (selFuel toks) mode seg).isSome)) ∧
    parseSelector ":-webkit-any(::content, span)" Mode.standard = none ∧
    isValidSelector "span" Mode.standard = true :=
  ⟨fun mode toks => parseComplexList_isSome (selFuel toks) mode (splitTopLevel toks),
   rfl, rfl⟩

/-- C8: serializing the parsed selector list reproduces the accepted inputs
`::shadow`, `.a::shadow`, `::content`, `.a::content` exactly. -/
theorem c8_round_trip :
    selectorsText (parseSelector "::shadow" Mode.standard) = "::shadow" ∧
    selectorsText (parseSelector ".a::shadow" Mode.standard) = ".a::shadow" ∧
    selectorsText (parseSelector "::content" Mode.standard) = "::content" ∧
    selectorsText (parseSelector ".a::content" Mode.standard) = ".a::content" :=
  ⟨rfl, rfl, rfl, rfl⟩

/-- C10: a `:not` trailing a pseudo-element is accepted only when its
argument is a single pseudo-class that is itself in that pseudo-element's
allow-list; concretely, `:not(:hover)` after `::-webkit-volume-slider` and
`:not(:horizontal)` after `::-webkit-scrollbar` are valid, while a class,
an id or a structural pseudo-class argument is rejected even though it
contains no pseudo-element. -/
theorem c10_not_after_pseudo_element :
    (∀ (mode : Mode) (pe : String) (args : List (List SimpleSelector)),
        validAfter mode pe (SimpleSelector.pseudoFn "not" args) = true →
        ∃ p, args = [[SimpleSelector.pseudoClass p]] ∧ allowedClassAfter pe p = true) ∧
    isValidSelector "::-webkit-volume-slider:not(:hover)" Mode.standard = true ∧
    isValidSelector "::-webkit-scrollbar:not(:horizontal)" Mode.standard = true ∧
    isValidSelector "::before:not(.a)" Mode.standard = false ∧
    isValidSelector "::content:not(#id)" Mode.standard = false ∧
    isValidSelector "::-webkit-scrollbar:vertical:not(:first-child)" Mode.standard = false := by
  refine ⟨?_, rfl, rfl, rfl, rfl, rfl⟩
  intro mode pe args h
  cases args with
  | nil => exact absurd h (by simp [validAfter])
  | cons c args2 =>
    cases args2 with
    | cons c2 args3 => exact absurd h (by simp [validAfter])
    | nil =>
      cases c with
      | nil => exact absurd h (by simp [validAfter])
      | cons s1 ss =>
        cases ss with
        | cons s2 ss2 => exact absurd h (by simp [validAfter])
        | nil =>
          cases s1 with
          | pseudoClass p =>
            refine ⟨p, rfl, ?_⟩
            simpa [validAfter] using h
          | typeSel nm => exact absurd h (by simp [validAfter])
          | universal => exact absurd h (by simp [validAfter])
          | idSel nm => exact absurd h (by simp [validAfter])
          | classSel nm => exact absurd h (by simp [validAfter])
          | pseudoNth nm a b => exact absurd h (by simp [validAfter])
          | pseudoFn nm args4 => exact absurd h (by simp [validAfter])
          | pseudoElem nm leg => exact absurd h (by simp [validAfter])

/-- Witness for C10's universal part at a concrete trailing `:not`. -/
theorem c10_not_after_pseudo_element_witness :
    ∃ p, [[SimpleSelector.pseudoClass "hover"]] = [[SimpleSelector.pseudoClass p]] ∧
      allowedClassAfter "-webkit-volume-slider" p = true :=
  c10_not_after_pseudo_element.1 Mode.standard "-webkit-volume-slider"
    [[SimpleSelector.pseudoClass "hover"]] rfl

end CSSSel
